import Mathlib

/-!
Verification of the tide-interpolation core of the `noaa_tides` integration
(`custom_components/noaa_tides/tide_math.py` and
`custom_components/noaa_tides/coordinator.py`), as a shallow embedding.

Modelling conventions:
* Times and heights are elements of an arbitrary `LinearOrderedField α`
  (instantiated at `ℚ` for executable witnesses and at `ℝ` for statements
  that involve the real trigonometric functions). Times are measured in
  hours, so `timedelta(hours=h)` is addition of `h`.
* The Python floating point `math.pi` and `math.cos` are passed to each
  definition as explicit parameters `pi : α` and `cosf : α → α`; theorems
  that need the characteristic values assume `cosf 0 = 1`, `cosf pi = -1`,
  and statements over `ℝ` instantiate them with `Real.pi` and `Real.cos`.
* A Python dict `{"time": ..., "height": ...}` record is a `TidePoint`.
  The optional `"type"` key is never read by any of the functions modelled
  here, so it is omitted.
* `None` is `Option.none`; a fallible operation returns an `Option`.
-/

namespace NoaaTides

/-- A tide record `{"time": t, "height": h}` (extremum event or dense
sample; the two share one record shape in the source). -/
structure TidePoint (α : Type) where
  time : α
  height : α
deriving DecidableEq, Repr

instance {α : Type} [Zero α] : Inhabited (TidePoint α) where
  default := ⟨0, 0⟩

variable {α : Type} [LinearOrderedField α]

/-- `TIDE_SEMI_PERIOD_HOURS = 6.2` from `const.py`, in hours. -/
def TIDE_SEMI_PERIOD_HOURS : α := 31 / 5

/-- `TREND_STEADY_THRESHOLD_METERS = 0.1` from `const.py`. -/
def TREND_STEADY_THRESHOLD_METERS : α := 1 / 10

/-- Lines 175-180 / 181-186 of `tide_math.py`: the earlier of the two
extrema handed to `interpolate_from_high_low` (`first_time`/`first_height`);
on equal timestamps the `high_time < low_time` test fails and the low
argument is chosen. -/
def firstOf (hi lo : TidePoint α) : TidePoint α :=
  if hi.time < lo.time then hi else lo

/-- The later of the two extrema (`second_time`/`second_height`). -/
def secondOf (hi lo : TidePoint α) : TidePoint α :=
  if hi.time < lo.time then lo else hi

/-- Lines 217-230 of `tide_math.py`: the common tail of
`interpolate_from_high_low` after a branch has picked `first_height`,
`second_height`, `period` and `elapsed`: the `period == 0` guard, then
`mean_height - amplitude * cos((elapsed / period) * pi)`. -/
def cosineStep (pi : α) (cosf : α → α)
    (firstHeight secondHeight period elapsed target : α) : TidePoint α :=
  if period = 0 then ⟨target, firstHeight⟩
  else
    ⟨target,
      (firstHeight + secondHeight) / 2 -
        ((secondHeight - firstHeight) / 2) * cosf ((elapsed / period) * pi)⟩

/-- Lines 188-230 of `tide_math.py`, after the first/second ordering:
the three branches (target before the first tide, after the second tide,
or between them) followed by `cosineStep`.  In the before-first branch the
source computes `prev_time`/`prev_height` but feeds the *unchanged*
`first_height`/`second_height` into the cosine (the `prev_height` local
is assigned and never used); in the after-second branch it reassigns
`first_height := second_height` and `second_height := first_height`
(the synthetic opposite tide). Both are reproduced verbatim. -/
def interpolateOrdered (pi : α) (cosf : α → α)
    (first second : TidePoint α) (target : α) : TidePoint α :=
  if target < first.time then
    -- prev_time = first_time - 6.2h; period/elapsed measured from prev_time
    let prevTime := first.time - TIDE_SEMI_PERIOD_HOURS
    cosineStep pi cosf first.height second.height
      (first.time - prevTime) (target - prevTime) target
  else if second.time < target then
    -- next_time = second_time + 6.2h; first := second, second := old first
    let nextTime := second.time + TIDE_SEMI_PERIOD_HOURS
    cosineStep pi cosf second.height first.height
      (nextTime - second.time) (target - second.time) target
  else
    cosineStep pi cosf first.height second.height
      (second.time - first.time) (target - first.time) target

/-- Lines 140-235 of `tide_math.py`: `interpolate_from_high_low`.
Returns `none` when either argument is missing, otherwise orders the two
extrema by timestamp and applies the sinusoidal interpolation. -/
def interpolate_from_high_low (pi : α) (cosf : α → α)
    (next_high next_low : Option (TidePoint α)) (target : α) :
    Option (TidePoint α) :=
  match next_high, next_low with
  | some hi, some lo =>
      some (interpolateOrdered pi cosf (firstOf hi lo) (secondOf hi lo) target)
  | _, _ => none

/-- In the in-range case (`first.time ≤ t ≤ second.time`, nonzero period)
`interpolateOrdered` is exactly the cosine formula of lines 223-230. -/
theorem interpolateOrdered_between (pi : α) (cosf : α → α)
    (f s : TidePoint α) (t : α)
    (hlo : f.time ≤ t) (hhi : t ≤ s.time) (hne : s.time - f.time ≠ 0) :
    interpolateOrdered pi cosf f s t =
      ⟨t, (f.height + s.height) / 2 -
        ((s.height - f.height) / 2) *
          cosf ((t - f.time) / (s.time - f.time) * pi)⟩ := by
  unfold interpolateOrdered cosineStep
  rw [if_neg (not_lt.mpr hlo), if_neg (not_lt.mpr hhi), if_neg hne]

/-- C1: between two extrema with positive period the interpolation is
`mean(h0,h1) - ((h1-h0)/2)·cos(π·(t-t0)/period)`, hitting `h0` at `t0`
and `h1` at `t1` (where `(t0,h0)` is the earlier extremum, `(t1,h1)` the
later, as selected by `firstOf`/`secondOf`). -/
theorem C1_extrema_cosine_formula (pi : α) (cosf : α → α)
    (hi lo : TidePoint α) (t : α)
    (hper : 0 < (secondOf hi lo).time - (firstOf hi lo).time)
    (hlo : (firstOf hi lo).time ≤ t) (hhi : t ≤ (secondOf hi lo).time)
    (hc0 : cosf 0 = 1) (hcpi : cosf pi = -1) :
    interpolate_from_high_low pi cosf (some hi) (some lo) t =
      some ⟨t, ((firstOf hi lo).height + (secondOf hi lo).height) / 2 -
        (((secondOf hi lo).height - (firstOf hi lo).height) / 2) *
          cosf (pi * (t - (firstOf hi lo).time) /
            ((secondOf hi lo).time - (firstOf hi lo).time))⟩ ∧
    (t = (firstOf hi lo).time →
      interpolate_from_high_low pi cosf (some hi) (some lo) t =
        some ⟨t, (firstOf hi lo).height⟩) ∧
    (t = (secondOf hi lo).time →
      interpolate_from_high_low pi cosf (some hi) (some lo) t =
        some ⟨t, (secondOf hi lo).height⟩) := by
  have hne : (secondOf hi lo).time - (firstOf hi lo).time ≠ 0 := ne_of_gt hper
  have hbr : interpolate_from_high_low pi cosf (some hi) (some lo) t =
      some ⟨t, ((firstOf hi lo).height + (secondOf hi lo).height) / 2 -
        (((secondOf hi lo).height - (firstOf hi lo).height) / 2) *
          cosf ((t - (firstOf hi lo).time) /
            ((secondOf hi lo).time - (firstOf hi lo).time) * pi)⟩ := by
    rw [show interpolate_from_high_low pi cosf (some hi) (some lo) t =
          some (interpolateOrdered pi cosf (firstOf hi lo) (secondOf hi lo) t) from rfl,
        interpolateOrdered_between pi cosf _ _ t hlo hhi hne]
  refine ⟨?_, ?_, ?_⟩
  · rw [hbr]
    have harg : (t - (firstOf hi lo).time) /
        ((secondOf hi lo).time - (firstOf hi lo).time) * pi =
        pi * (t - (firstOf hi lo).time) /
          ((secondOf hi lo).time - (firstOf hi lo).time) := by
      ring
    rw [harg]
  · intro ht
    rw [hbr, ht]
    simp only [sub_self, zero_div, zero_mul, hc0, mul_one,
      Option.some.injEq, TidePoint.mk.injEq, true_and]
    ring
  · intro ht
    rw [hbr, ht]
    rw [div_self hne, one_mul, hcpi]
    simp only [mul_neg_one, Option.some.injEq, TidePoint.mk.injEq, true_and]
    ring

/-- Witness for C1 at concrete inputs: high `(0h, 2.0)`, low `(6h, 0.0)`,
with a toy cosine `x ↦ 1 - x` and `pi := 2` (so `cos 0 = 1`, `cos pi = -1`);
at `t = 3` the midpoint value is the mean plus the amplitude times
`cos 1 = 0`, i.e. `1`; the endpoints return `2` and `0` exactly. -/
theorem C1_extrema_cosine_formula_witness :
    (0:ℚ) < (secondOf ⟨0, 2⟩ ⟨6, 0⟩).time - (firstOf (⟨0, 2⟩ : TidePoint ℚ) ⟨6, 0⟩).time ∧
    interpolate_from_high_low (α := ℚ) 2 (fun x => 1 - x)
      (some ⟨0, 2⟩) (some ⟨6, 0⟩) 3 = some ⟨3, 1⟩ ∧
    interpolate_from_high_low (α := ℚ) 2 (fun x => 1 - x)
      (some ⟨0, 2⟩) (some ⟨6, 0⟩) 0 = some ⟨0, 2⟩ ∧
    interpolate_from_high_low (α := ℚ) 2 (fun x => 1 - x)
      (some ⟨0, 2⟩) (some ⟨6, 0⟩) 6 = some ⟨6, 0⟩ := by
  refine ⟨by norm_num [firstOf, secondOf], ?_, ?_, ?_⟩
  · exact ((C1_extrema_cosine_formula 2 (fun x => 1 - x) ⟨0, 2⟩ ⟨6, 0⟩ 3
      (by norm_num [firstOf, secondOf]) (by norm_num [firstOf, secondOf])
      (by norm_num [firstOf, secondOf]) (by norm_num) (by norm_num)).1).trans
      (by norm_num [firstOf, secondOf])
  · exact ((C1_extrema_cosine_formula 2 (fun x => 1 - x) ⟨0, 2⟩ ⟨6, 0⟩ 0
      (by norm_num [firstOf, secondOf]) (by norm_num [firstOf, secondOf])
      (by norm_num [firstOf, secondOf]) (by norm_num) (by norm_num)).2.1
      (by norm_num [firstOf, secondOf])).trans (by norm_num [firstOf, secondOf])
  · exact ((C1_extrema_cosine_formula 2 (fun x => 1 - x) ⟨0, 2⟩ ⟨6, 0⟩ 6
      (by norm_num [firstOf, secondOf]) (by norm_num [firstOf, secondOf])
      (by norm_num [firstOf, secondOf]) (by norm_num) (by norm_num)).2.2
      (by norm_num [firstOf, secondOf])).trans (by norm_num [firstOf, secondOf])

/-- C2 (code bug evidence): evaluating `interpolate_from_high_low` with the
true `Real.pi`/`Real.cos` at high `(0h, 2.0)`, low `(6.2h, 0.0)` and target
`t0 - TIDE_SEMI_PERIOD = -6.2h` (the synthetic previous extremum's own
timestamp) yields height `2.0 = h0`.  The spec requires the synthetic
extremum there to carry the *other* extremum's height `h1 = 0.0`: the
before-first branch never re-orients `first_height`/`second_height`
(its `prev_height` local is dead), so the cosine term's sign is flipped
and the curve is discontinuous at the first extremum. -/
theorem C2_before_first_code_eval :
    interpolate_from_high_low (α := ℝ) Real.pi Real.cos
      (some ⟨0, 2⟩) (some ⟨31 / 5, 0⟩) (-(31 / 5)) = some ⟨-(31 / 5), 2⟩ := by
  have hfirst : firstOf (⟨0, 2⟩ : TidePoint ℝ) ⟨31 / 5, 0⟩ = ⟨0, 2⟩ := by
    rw [firstOf, if_pos (by norm_num)]
  have hsecond : secondOf (⟨0, 2⟩ : TidePoint ℝ) ⟨31 / 5, 0⟩ = ⟨31 / 5, 0⟩ := by
    rw [secondOf, if_pos (by norm_num)]
  rw [show interpolate_from_high_low (α := ℝ) Real.pi Real.cos
        (some ⟨0, 2⟩) (some ⟨31 / 5, 0⟩) (-(31 / 5)) =
      some (interpolateOrdered Real.pi Real.cos
        (firstOf ⟨0, 2⟩ ⟨31 / 5, 0⟩) (secondOf ⟨0, 2⟩ ⟨31 / 5, 0⟩)
        (-(31 / 5))) from rfl,
    hfirst, hsecond, interpolateOrdered, TIDE_SEMI_PERIOD_HOURS]
  rw [if_pos (by norm_num : (-(31 / 5) : ℝ) < TidePoint.time ⟨0, 2⟩)]
  rw [cosineStep, if_neg (by norm_num : (TidePoint.time ⟨(0:ℝ), 2⟩ -
    (TidePoint.time ⟨(0:ℝ), 2⟩ - 31 / 5)) ≠ 0)]
  norm_num [Real.cos_zero]

/-- C7 counterexample: with two extrema sharing timestamp `0` but with
heights `2.0` (high) and `0.0` (low), the target `-3.1h` falls in the
before-first branch, whose period is the 6.2h semi-period, and with the
true cosine the result is the mean `1.0` — not the first extremum's
height (`0.0`), nor the other one (`2.0`).  So the claim's "every target
time" is false; only the target at the shared timestamp returns the
first extremum's height. -/
theorem C7_counterexample :
    interpolate_from_high_low (α := ℝ) Real.pi Real.cos
      (some ⟨0, 2⟩) (some ⟨0, 0⟩) (-(31 / 10)) = some ⟨-(31 / 10), 1⟩ ∧
    (1 : ℝ) ≠ 0 ∧ (1 : ℝ) ≠ 2 := by
  refine ⟨?_, by norm_num, by norm_num⟩
  have hfirst : firstOf (⟨0, 2⟩ : TidePoint ℝ) ⟨0, 0⟩ = ⟨0, 0⟩ := by
    rw [firstOf, if_neg (by norm_num)]
  have hsecond : secondOf (⟨0, 2⟩ : TidePoint ℝ) ⟨0, 0⟩ = ⟨0, 2⟩ := by
    rw [secondOf, if_neg (by norm_num)]
  rw [show interpolate_from_high_low (α := ℝ) Real.pi Real.cos
        (some ⟨0, 2⟩) (some ⟨0, 0⟩) (-(31 / 10)) =
      some (interpolateOrdered Real.pi Real.cos
        (firstOf ⟨0, 2⟩ ⟨0, 0⟩) (secondOf ⟨0, 2⟩ ⟨0, 0⟩)
        (-(31 / 10))) from rfl,
    hfirst, hsecond, interpolateOrdered, TIDE_SEMI_PERIOD_HOURS]
  rw [if_pos (by norm_num : (-(31 / 10) : ℝ) < TidePoint.time ⟨0, 0⟩)]
  rw [cosineStep, if_neg (by norm_num : (TidePoint.time ⟨(0:ℝ), 0⟩ -
    (TidePoint.time ⟨(0:ℝ), 0⟩ - 31 / 5)) ≠ 0)]
  have harg : (-(31 / 10) - (TidePoint.time ⟨(0:ℝ), 0⟩ - 31 / 5)) /
      (TidePoint.time ⟨(0:ℝ), 0⟩ - (TidePoint.time ⟨(0:ℝ), 0⟩ - 31 / 5)) *
        Real.pi = Real.pi / 2 := by
    norm_num
    ring
  rw [harg, Real.cos_pi_div_two]
  norm_num

/-- On a timestamp tie, a target at the shared timestamp lands in the
in-range branch with `period == 0` and returns the low argument's height
(`high_time < low_time` fails, so `first = low`). -/
theorem interpolateTieAtSharedTime (pi : α) (cosf : α → α)
    (hi lo : TidePoint α) (t : α) (heq : hi.time = lo.time)
    (ht : t = hi.time) :
    interpolate_from_high_low pi cosf (some hi) (some lo) t =
      some ⟨t, lo.height⟩ := by
  have hfirst : firstOf hi lo = lo := by
    rw [firstOf, if_neg (by rw [heq]; exact lt_irrefl _)]
  have hsecond : secondOf hi lo = hi := by
    rw [secondOf, if_neg (by rw [heq]; exact lt_irrefl _)]
  rw [show interpolate_from_high_low pi cosf (some hi) (some lo) t =
      some (interpolateOrdered pi cosf (firstOf hi lo) (secondOf hi lo) t)
      from rfl, hfirst, hsecond, interpolateOrdered]
  rw [if_neg (by rw [ht, heq]; exact lt_irrefl _),
    if_neg (by rw [ht]; exact lt_irrefl _)]
  rw [cosineStep, if_pos (by rw [heq]; exact sub_self _)]

/-- C7 amended: with two extrema of identical timestamps the function
still returns a defined result for every target (no failure), and when
the target equals the shared timestamp the result is the first
extremum's height verbatim — which on a timestamp tie is the *low*
argument (`high_time < low_time` fails, so `first = low`). -/
theorem C7_amended_period_zero (pi : α) (cosf : α → α)
    (hi lo : TidePoint α) (t : α) (heq : hi.time = lo.time) :
    (interpolate_from_high_low pi cosf (some hi) (some lo) t).isSome ∧
    (t = hi.time →
      interpolate_from_high_low pi cosf (some hi) (some lo) t =
        some ⟨t, lo.height⟩) :=
  ⟨rfl, fun ht => interpolateTieAtSharedTime pi cosf hi lo t heq ht⟩

/-- Witness for the amended C7: identical timestamps `0`, heights `2` and
`0`; at the shared timestamp the result is the low argument's height. -/
theorem C7_amended_period_zero_witness :
    (TidePoint.time (⟨0, 2⟩ : TidePoint ℚ) = TidePoint.time (⟨0, 0⟩ : TidePoint ℚ)) ∧
    interpolate_from_high_low (α := ℚ) 0 (fun _ => 0)
      (some ⟨0, 2⟩) (some ⟨0, 0⟩) 0 = some ⟨0, 0⟩ :=
  ⟨rfl, (C7_amended_period_zero 0 (fun _ => 0) ⟨0, 2⟩ ⟨0, 0⟩ 0 rfl).2 rfl⟩

/-- C10 counterexample: on a timestamp tie the first/second roles are
decided by argument position, not timestamps, so swapping the arguments
changes the result: both calls hit the `period == 0` guard and return
their respective `first_height`. -/
theorem C10_counterexample :
    interpolate_from_high_low (α := ℚ) 0 (fun _ => 0)
      (some ⟨0, 2⟩) (some ⟨0, 0⟩) 0 = some ⟨0, 0⟩ ∧
    interpolate_from_high_low (α := ℚ) 0 (fun _ => 0)
      (some ⟨0, 0⟩) (some ⟨0, 2⟩) 0 = some ⟨0, 2⟩ ∧
    (⟨0, 0⟩ : TidePoint ℚ) ≠ ⟨0, 2⟩ := by
  refine ⟨?_, ?_, by simp⟩
  · exact interpolateTieAtSharedTime 0 (fun _ => 0) ⟨0, 2⟩ ⟨0, 0⟩ 0 rfl rfl
  · exact interpolateTieAtSharedTime 0 (fun _ => 0) ⟨0, 0⟩ ⟨0, 2⟩ 0 rfl rfl

/-- C10 amended: whenever the two extremum arguments have distinct
timestamps, `interpolate_from_high_low` is symmetric in them — the
earlier/later roles are then determined solely by comparing timestamps. -/
theorem C10_amended_symmetric (pi : α) (cosf : α → α)
    (a b : TidePoint α) (t : α) (hne : a.time ≠ b.time) :
    interpolate_from_high_low pi cosf (some a) (some b) t =
      interpolate_from_high_low pi cosf (some b) (some a) t := by
  rcases hne.lt_or_lt with h | h
  · rw [show interpolate_from_high_low pi cosf (some a) (some b) t =
        some (interpolateOrdered pi cosf (firstOf a b) (secondOf a b) t)
        from rfl,
      show interpolate_from_high_low pi cosf (some b) (some a) t =
        some (interpolateOrdered pi cosf (firstOf b a) (secondOf b a) t)
        from rfl]
    rw [firstOf, secondOf, firstOf, secondOf,
      if_pos h, if_pos h, if_neg (lt_asymm h), if_neg (lt_asymm h)]
  · rw [show interpolate_from_high_low pi cosf (some a) (some b) t =
        some (interpolateOrdered pi cosf (firstOf a b) (secondOf a b) t)
        from rfl,
      show interpolate_from_high_low pi cosf (some b) (some a) t =
        some (interpolateOrdered pi cosf (firstOf b a) (secondOf b a) t)
        from rfl]
    rw [firstOf, secondOf, firstOf, secondOf,
      if_pos h, if_pos h, if_neg (lt_asymm h), if_neg (lt_asymm h)]

/-- Witness for the amended C10 at distinct timestamps. -/
theorem C10_amended_symmetric_witness :
    (TidePoint.time (⟨0, 2⟩ : TidePoint ℚ) ≠ TidePoint.time (⟨6, 0⟩ : TidePoint ℚ)) ∧
    interpolate_from_high_low (α := ℚ) 2 (fun x => 1 - x)
      (some ⟨0, 2⟩) (some ⟨6, 0⟩) 3 =
      interpolate_from_high_low (α := ℚ) 2 (fun x => 1 - x)
        (some ⟨6, 0⟩) (some ⟨0, 2⟩) 3 :=
  ⟨by norm_num,
    C10_amended_symmetric 2 (fun x => 1 - x) ⟨0, 2⟩ ⟨6, 0⟩ 3 (by norm_num)⟩

/-- Lines 95-105 of `tide_math.py` (and the identical bracket search of
lines 270-279): walk the list in order keeping the latest element with
`time <= target` as `before`; stop at the first element with
`time > target`, which becomes `after`.  The accumulator is the current
value of `before` (initially `None`). -/
def findBracket (target : α) :
    List (TidePoint α) → Option (TidePoint α) →
      Option (TidePoint α) × Option (TidePoint α)
  | [], before => (before, none)
  | p :: rest, before =>
      if p.time ≤ target then findBracket target rest (some p)
      else (before, some p)

/-- Lines 122-137 of `tide_math.py`: the final linear-interpolation step
between the bracketing samples, with the `time_span == 0` guard that
forces `ratio = 0`. -/
def linearInterpStep (before after : TidePoint α) (target : α) : TidePoint α :=
  let timeSpan := after.time - before.time
  let timeOffset := target - before.time
  let ratio := if timeSpan = 0 then 0 else timeOffset / timeSpan
  ⟨target, before.height + (after.height - before.height) * ratio⟩

/-- Lines 93-137 of `tide_math.py`: the linear fallback path — bracket
search, clamp to the first sample's height when `before` is `None`, to
the last sample's height when `after` is `None`, otherwise the linear
step. -/
def linearPath (preds : List (TidePoint α)) (target : α) :
    Option (TidePoint α) :=
  match findBracket target preds none with
  | (none, _) => some ⟨target, (preds.headD default).height⟩
  | (some _, none) => some ⟨target, (preds.getLastD default).height⟩
  | (some b, some a) => some (linearInterpStep b a target)

/-- Lines 63-71 of `tide_math.py`: deduplicate by timestamp, keeping the
first occurrence (the source dedups on seconds-since-start, which is an
injective image of the timestamps). -/
def dedupByTime : List (TidePoint α) → List α → List (TidePoint α)
  | [], _ => []
  | p :: rest, seen =>
      if p.time ∈ seen then dedupByTime rest seen
      else p :: dedupByTime rest (p.time :: seen)

/-- Lines 14-137 of `tide_math.py`: `interpolate_tide_height`.
The scipy dependency is modelled by two parameters: `scipyAvailable`
(false = the `import` raises and the whole cubic block is skipped) and
`cubic`, the `interp1d(..., kind='cubic')` interpolant applied to the
deduplicated samples (`none` = the call raises and the code falls back
to the linear path).  With ≥4 samples and scipy present, the source
clamps out-of-range targets to the edge heights *before* building the
interpolant, raises `ValueError` when fewer than 4 unique timestamps
remain, and otherwise returns the cubic value; every failure falls
through to the linear path. -/
def interpolate_tide_height (scipyAvailable : Bool)
    (cubic : List (TidePoint α) → α → Option α)
    (preds : List (TidePoint α)) (target : α) : Option (TidePoint α) :=
  if preds.length < 2 then none
  else
    let cubicResult : Option (TidePoint α) :=
      if 4 ≤ preds.length ∧ scipyAvailable = true then
        if ¬((preds.headD default).time ≤ target ∧
             target ≤ (preds.getLastD default).time) then
          if target < (preds.headD default).time then
            some ⟨target, (preds.headD default).height⟩
          else
            some ⟨target, (preds.getLastD default).height⟩
        else
          let uniq := dedupByTime preds []
          if uniq.length < 4 then none
          else
            match cubic uniq target with
            | some h => some ⟨target, h⟩
            | none => none
      else none
    match cubicResult with
    | some r => some r
    | none => linearPath preds target

/-- The default element of `getLastD` on a nonempty list is a member. -/
theorem getLastD_mem {β : Type} [Inhabited β] :
    ∀ (l : List β), l ≠ [] → l.getLastD default ∈ l := by
  intro l
  induction l with
  | nil => intro h; exact absurd rfl h
  | cons a t ih =>
    intro _
    cases t with
    | nil => simp [List.getLastD]
    | cons b t2 =>
      have : (a :: b :: t2).getLastD default = (b :: t2).getLastD default := by
        simp
      rw [this]
      exact List.mem_cons_of_mem a (ih (by simp))

/-- In a time-sorted list every element's time is bounded by the last
element's time. -/
theorem sorted_time_le_getLastD [Zero α] :
    ∀ (l : List (TidePoint α)),
      l.Pairwise (fun p q => p.time ≤ q.time) →
      ∀ p ∈ l, p.time ≤ (l.getLastD default).time := by
  intro l
  induction l with
  | nil => intro _ p hp; cases hp
  | cons a t ih =>
    intro h p hp
    rcases List.pairwise_cons.mp h with ⟨ha, ht⟩
    cases t with
    | nil =>
      have hpa : p = a := by simpa using hp
      subst hpa
      simp [List.getLastD]
    | cons b t2 =>
      have hlast : (a :: b :: t2).getLastD default = (b :: t2).getLastD default := by
        simp
      rw [hlast]
      rcases List.mem_cons.mp hp with rfl | hp'
      · exact ha _ (getLastD_mem _ (by simp))
      · exact ih ht p hp'

/-- When the head already lies strictly past the target the bracket scan
stops immediately: `before` keeps its accumulator, `after` is the head. -/
theorem findBracket_head_gt (target : α) (p : TidePoint α)
    (rest : List (TidePoint α)) (acc : Option (TidePoint α))
    (h : target < p.time) :
    findBracket target (p :: rest) acc = (acc, some p) := by
  unfold findBracket
  rw [if_neg (not_le.mpr h)]

/-- When every element's time is at most the target the scan consumes the
whole list: `before` becomes the last element (or the accumulator for an
empty list) and `after` stays `None`. -/
theorem findBracket_all_le (target : α) :
    ∀ (l : List (TidePoint α)) (acc : Option (TidePoint α)),
      (∀ p ∈ l, p.time ≤ target) →
      findBracket target l acc = (l.getLast?.or acc, none) := by
  intro l
  induction l with
  | nil => intro acc _; simp [findBracket]
  | cons p rest ih =>
    intro acc h
    unfold findBracket
    rw [if_pos (h p (List.mem_cons_self p rest))]
    rw [ih (some p) (fun q hq => h q (List.mem_cons_of_mem p hq))]
    cases rest with
    | nil => simp
    | cons q t2 =>
      have hs : ((q :: t2).getLast?).isSome := by
        rw [List.getLast?_isSome]
        simp
      obtain ⟨x, hx⟩ := Option.isSome_iff_exists.mp hs
      simp [List.getLast?_cons_cons, hx]

/-- C5: for a time-ordered series of ≥2 samples and a target strictly
outside the series' time span, `interpolate_tide_height` clamps to the
nearest edge sample's height and stamps the requested target time —
through both the cubic guard (≥4 samples with scipy) and the linear
fallback. -/
theorem C5_edge_clamp (sa : Bool)
    (cubic : List (TidePoint α) → α → Option α)
    (preds : List (TidePoint α)) (target : α)
    (hsort : preds.Pairwise (fun p q => p.time ≤ q.time))
    (hlen : 2 ≤ preds.length) :
    (target < (preds.headD default).time →
      interpolate_tide_height sa cubic preds target =
        some ⟨target, (preds.headD default).height⟩) ∧
    ((preds.getLastD default).time < target →
      interpolate_tide_height sa cubic preds target =
        some ⟨target, (preds.getLastD default).height⟩) := by
  obtain ⟨p, rest, rfl⟩ : ∃ p rest, preds = p :: rest := by
    cases preds with
    | nil => simp at hlen
    | cons p rest => exact ⟨p, rest, rfl⟩
  have hnl : ¬ (p :: rest).length < 2 := not_lt.mpr hlen
  constructor
  · intro hb
    have hb' : target < p.time := by simpa using hb
    unfold interpolate_tide_height
    rw [if_neg hnl]
    by_cases hc : 4 ≤ (p :: rest).length ∧ sa = true
    · rw [if_pos hc]
      rw [if_pos (by
        intro hcon
        exact absurd hcon.1 (by simpa using not_le.mpr hb'))]
      rw [if_pos hb]
    · rw [if_neg hc]
      show linearPath (p :: rest) target = _
      unfold linearPath
      rw [findBracket_head_gt target p rest none hb']
  · intro ha
    have hall : ∀ q ∈ p :: rest, q.time ≤ target :=
      fun q hq => le_of_lt (lt_of_le_of_lt (sorted_time_le_getLastD _ hsort q hq) ha)
    have hhead_le : (⟨p.time, p.height⟩ : TidePoint α).time ≤ target :=
      hall p (List.mem_cons_self p rest)
    unfold interpolate_tide_height
    rw [if_neg hnl]
    by_cases hc : 4 ≤ (p :: rest).length ∧ sa = true
    · rw [if_pos hc]
      rw [if_pos (by
        intro hcon
        exact absurd hcon.2 (not_le.mpr ha))]
      rw [if_neg (not_lt.mpr (by simpa using hhead_le))]
    · rw [if_neg hc]
      show linearPath (p :: rest) target = _
      unfold linearPath
      rw [findBracket_all_le target (p :: rest) none hall]
      have : (p :: rest).getLast?.or none = some ((p :: rest).getLastD default) := by
        rw [List.getLastD_eq_getLast?]
        cases hgl : (p :: rest).getLast? with
        | none => exact absurd hgl (by simp)
        | some x => simp
      rw [this]

/-- Witness for C5 at a concrete sorted 2-sample series, before and after
the span. -/
theorem C5_edge_clamp_witness :
    ((⟨0, 1⟩ : TidePoint ℚ).time ≤ (⟨2, 5⟩ : TidePoint ℚ).time) ∧
    interpolate_tide_height (α := ℚ) false (fun _ _ => none)
      [⟨0, 1⟩, ⟨2, 5⟩] (-1) = some ⟨-1, 1⟩ ∧
    interpolate_tide_height (α := ℚ) false (fun _ _ => none)
      [⟨0, 1⟩, ⟨2, 5⟩] 7 = some ⟨7, 5⟩ := by
  have hs : ([⟨0, 1⟩, ⟨2, 5⟩] : List (TidePoint ℚ)).Pairwise
      (fun p q => p.time ≤ q.time) := by
    norm_num [List.pairwise_cons]
  refine ⟨by norm_num, ?_, ?_⟩
  · exact ((C5_edge_clamp false (fun _ _ => none) [⟨0, 1⟩, ⟨2, 5⟩] (-1)
      hs (by norm_num)).1 (by norm_num)).trans (by norm_num)
  · exact ((C5_edge_clamp false (fun _ _ => none) [⟨0, 1⟩, ⟨2, 5⟩] 7
      hs (by norm_num)).2 (by norm_num)).trans (by norm_num)

/-- C6: on a 2-point series the interpolation is exactly linear (the
cubic tier needs ≥4 samples, so the linear path always runs), and the
`time_span == 0` guard of the final linear step returns the bracketing
`before` sample's height instead of dividing by zero. -/
theorem C6_linear_law (sa : Bool)
    (cubic : List (TidePoint α) → α → Option α)
    (t0 h0 t1 h1 t : α) (hlt : t0 < t1) (hl : t0 ≤ t) (hr : t ≤ t1) :
    interpolate_tide_height sa cubic [⟨t0, h0⟩, ⟨t1, h1⟩] t =
      some ⟨t, h0 + (h1 - h0) * (t - t0) / (t1 - t0)⟩ ∧
    (∀ (b a : TidePoint α) (u : α),
      a.time - b.time = 0 → linearInterpStep b a u = ⟨u, b.height⟩) := by
  have hne : t1 - t0 ≠ 0 := sub_ne_zero.mpr (ne_of_gt hlt)
  constructor
  · unfold interpolate_tide_height
    rw [if_neg (by norm_num)]
    rw [if_neg (by norm_num)]
    show linearPath [⟨t0, h0⟩, ⟨t1, h1⟩] t = _
    unfold linearPath
    rcases eq_or_lt_of_le hr with heq | hr'
    · have hall : ∀ q ∈ ([⟨t0, h0⟩, ⟨t1, h1⟩] : List (TidePoint α)),
          q.time ≤ t := by
        intro q hq
        rcases List.mem_cons.mp hq with h2 | hq2
        · rw [h2]; exact hl
        · rcases List.mem_cons.mp hq2 with h3 | h3
          · rw [h3]
            exact le_of_eq heq.symm
          · cases h3
      have hfb : findBracket t [⟨t0, h0⟩, ⟨t1, h1⟩] none =
          (some ⟨t1, h1⟩, none) := by
        rw [findBracket_all_le t [⟨t0, h0⟩, ⟨t1, h1⟩] none hall]
        rfl
      rw [hfb]
      show some (⟨t, (([⟨t0, h0⟩, ⟨t1, h1⟩] :
        List (TidePoint α)).getLastD default).height⟩ : TidePoint α) = _
      rw [show (([⟨t0, h0⟩, ⟨t1, h1⟩] :
        List (TidePoint α)).getLastD default) = ⟨t1, h1⟩ from by
          simp [List.getLastD]]
      simp only [Option.some.injEq, TidePoint.mk.injEq, true_and]
      rw [heq, mul_div_assoc, div_self hne, mul_one]
      ring
    · have hbr : findBracket t [⟨t0, h0⟩, ⟨t1, h1⟩] none =
          (some ⟨t0, h0⟩, some ⟨t1, h1⟩) := by
        unfold findBracket
        rw [if_pos (by simpa using hl)]
        unfold findBracket
        rw [if_neg (by simpa using not_le.mpr hr')]
      rw [hbr]
      unfold linearInterpStep
      simp only [Option.some.injEq, TidePoint.mk.injEq, true_and]
      rw [if_neg hne]
      ring
  · intro b a u hz
    simp [linearInterpStep, hz]

/-- Witness for C6 at `[(0,1),(2,3)]`, `t = 1` (value `2`), with a
degenerate-span step example. -/
theorem C6_linear_law_witness :
    (0 : ℚ) < 2 ∧
    interpolate_tide_height (α := ℚ) false (fun _ _ => none)
      [⟨0, 1⟩, ⟨2, 3⟩] 1 = some ⟨1, 1 + (3 - 1) * (1 - 0) / (2 - 0)⟩ ∧
    linearInterpStep (α := ℚ) ⟨5, 9⟩ ⟨5, 4⟩ 7 = ⟨7, 9⟩ := by
  have h := C6_linear_law false (fun _ _ => none) (0 : ℚ) 1 2 3 1
    (by norm_num) (by norm_num) (by norm_num)
  exact ⟨by norm_num, h.1, h.2 ⟨5, 9⟩ ⟨5, 4⟩ 7 (by norm_num)⟩

/-- Lines 270-291 of `tide_math.py`: the body of one loop iteration of
`generate_synthetic_predictions` — bracket the target among the tides
(the same scan as `findBracket`; the two `if`s have mutually exclusive
conditions and the second breaks), then: both brackets present and
`period > 0` → cosine interpolation; only a previous tide → its height;
only a next tide → its height; otherwise nothing is appended. -/
def synthPoint (pi : α) (cosf : α → α) (all_tides : List (TidePoint α))
    (target : α) : Option (TidePoint α) :=
  match findBracket target all_tides none with
  | (some prev, some next) =>
      let period := next.time - prev.time
      let elapsed := target - prev.time
      if 0 < period then
        some ⟨target, (prev.height + next.height) / 2 -
          ((next.height - prev.height) / 2) * cosf ((elapsed / period) * pi)⟩
      else none
  | (some prev, none) => some ⟨target, prev.height⟩
  | (none, some next) => some ⟨target, next.height⟩
  | (none, none) => none

/-- Lines 238-310 of `tide_math.py`: `generate_synthetic_predictions`.
One point is attempted per whole hour from `now - history_hours` to
`now + hours` inclusive (`range(total_hours + 1)`); the result is `None`
for fewer than 2 tides or when nothing was appended. -/
def generate_synthetic_predictions (pi : α) (cosf : α → α)
    (all_tides : List (TidePoint α)) (hours history_hours : ℕ) (now : α) :
    Option (List (TidePoint α)) :=
  -- start_time = now - history_hours; target of iteration k = start_time + k
  if all_tides.length < 2 then none
  else if (List.range (history_hours + hours + 1)).filterMap
      (fun k : ℕ => synthPoint pi cosf all_tides (now - (history_hours : α) + (k : α)))
      = [] then none
  else some ((List.range (history_hours + hours + 1)).filterMap
      (fun k : ℕ => synthPoint pi cosf all_tides (now - (history_hours : α) + (k : α))))

/-- Any `before` produced by the scan from an empty accumulator has
`time ≤ target`. -/
theorem findBracket_before_le (target : α) :
    ∀ (l : List (TidePoint α)) (acc : Option (TidePoint α)),
      (∀ b, acc = some b → b.time ≤ target) →
      ∀ b, (findBracket target l acc).1 = some b → b.time ≤ target := by
  intro l
  induction l with
  | nil => intro acc hacc b hb; exact hacc b hb
  | cons p rest ih =>
    intro acc hacc b hb
    unfold findBracket at hb
    by_cases hp : p.time ≤ target
    · rw [if_pos hp] at hb
      exact ih (some p) (fun c hc => by rw [Option.some.injEq] at hc; rw [← hc]; exact hp) b hb
    · rw [if_neg hp] at hb
      exact hacc b hb

/-- Any `after` produced by the scan has `target < time`. -/
theorem findBracket_after_gt (target : α) :
    ∀ (l : List (TidePoint α)) (acc : Option (TidePoint α)) (a : TidePoint α),
      (findBracket target l acc).2 = some a → target < a.time := by
  intro l
  induction l with
  | nil => intro acc a ha; simp [findBracket] at ha
  | cons p rest ih =>
    intro acc a ha
    unfold findBracket at ha
    by_cases hp : p.time ≤ target
    · rw [if_pos hp] at ha
      exact ih (some p) a ha
    · rw [if_neg hp] at ha
      rw [Option.some.injEq] at ha
      rw [← ha]
      exact not_le.mp hp

/-- The scan of a nonempty list (or one starting from a `some`
accumulator) never yields two empty brackets. -/
theorem findBracket_not_both_none (target : α) :
    ∀ (l : List (TidePoint α)) (acc : Option (TidePoint α)),
      acc.isSome = true ∨ l ≠ [] →
      ¬(findBracket target l acc = (none, none)) := by
  intro l
  induction l with
  | nil =>
    intro acc hacc hcon
    rcases hacc with h | h
    · unfold findBracket at hcon
      rw [Prod.mk.injEq] at hcon
      rw [hcon.1] at h
      simp at h
    · exact h rfl
  | cons p rest ih =>
    intro acc _ hcon
    unfold findBracket at hcon
    by_cases hp : p.time ≤ target
    · rw [if_pos hp] at hcon
      exact ih (some p) (Or.inl rfl) hcon
    · rw [if_neg hp] at hcon
      rw [Prod.mk.injEq] at hcon
      exact Option.noConfusion hcon.2

/-- On a nonempty tide list `synthPoint` always yields a point stamped
with the requested target time. -/
theorem synthPoint_isSome (pi : α) (cosf : α → α)
    (all_tides : List (TidePoint α)) (target : α) (hne : all_tides ≠ []) :
    ∃ h, synthPoint pi cosf all_tides target = some ⟨target, h⟩ := by
  rcases hfb : findBracket target all_tides none with ⟨bef, aft⟩
  match bef, aft with
  | some prev, some next =>
      have hb : prev.time ≤ target :=
        findBracket_before_le target all_tides none (by intro b hb; cases hb) prev
          (by rw [hfb])
      have ha : target < next.time :=
        findBracket_after_gt target all_tides none next (by rw [hfb])
      have hper : 0 < next.time - prev.time := sub_pos.mpr (lt_of_le_of_lt hb ha)
      exact ⟨(prev.height + next.height) / 2 -
        ((next.height - prev.height) / 2) *
          cosf ((target - prev.time) / (next.time - prev.time) * pi),
        by unfold synthPoint; rw [hfb]; simp only [if_pos hper]⟩
  | some prev, none =>
      exact ⟨prev.height, by unfold synthPoint; rw [hfb]⟩
  | none, some next =>
      exact ⟨next.height, by unfold synthPoint; rw [hfb]⟩
  | none, none =>
      exact absurd hfb (findBracket_not_both_none target all_tides none (Or.inr hne))

/-- `filterMap` over a list on which `f` always yields a point whose time
is `g k` preserves the length and maps times to `g`. -/
theorem filterMap_length_and_times {β : Type} {f : ℕ → Option (TidePoint β)} {g : ℕ → β} :
    ∀ (ks : List ℕ), (∀ k ∈ ks, ∃ h, f k = some ⟨g k, h⟩) →
      (ks.filterMap f).length = ks.length ∧
      (ks.filterMap f).map TidePoint.time = ks.map g := by
  intro ks
  induction ks with
  | nil => intro _; simp
  | cons k t ih =>
    intro h
    obtain ⟨hh, hf⟩ := h k (List.mem_cons_self k t)
    obtain ⟨ihl, iht⟩ := ih (fun k2 hk2 => h k2 (List.mem_cons_of_mem k hk2))
    rw [List.filterMap_cons, hf]
    constructor
    · simp [ihl]
    · simp [iht]

/-- `generate_synthetic_predictions` on ≥2 tides always yields a series of
`history_hours + hours + 1` points whose times form the hourly grid, and
`None` on <2 tides. -/
theorem generate_synthetic_spec (pi : α) (cosf : α → α) :
    (∀ (all_tides : List (TidePoint α)) (hours history_hours : ℕ) (now : α),
      2 ≤ all_tides.length →
      ∃ l, generate_synthetic_predictions pi cosf all_tides hours history_hours now
          = some l ∧
        l.length = history_hours + hours + 1 ∧
        l.map TidePoint.time = (List.range (history_hours + hours + 1)).map
          (fun k : ℕ => now - (history_hours : α) + (k : α))) ∧
    (∀ (all_tides : List (TidePoint α)) (hours history_hours : ℕ) (now : α),
      all_tides.length < 2 →
      generate_synthetic_predictions pi cosf all_tides hours history_hours now
        = none) := by
  constructor
  · intro all_tides hours history_hours now hlen
    have hne : all_tides ≠ [] := by
      intro hcon
      rw [hcon] at hlen
      simp at hlen
    have hpts : ∀ k ∈ List.range (history_hours + hours + 1),
        ∃ h, synthPoint pi cosf all_tides (now - (history_hours : α) + (k : α))
          = some ⟨now - (history_hours : α) + (k : α), h⟩ :=
      fun k _ => synthPoint_isSome pi cosf all_tides _ hne
    obtain ⟨hl, ht⟩ := filterMap_length_and_times (List.range (history_hours + hours + 1)) hpts
    refine ⟨(List.range (history_hours + hours + 1)).filterMap
      (fun k : ℕ => synthPoint pi cosf all_tides (now - (history_hours : α) + (k : α))),
      ?_, ?_, ?_⟩
    · unfold generate_synthetic_predictions
      rw [if_neg (not_lt.mpr hlen)]
      rw [if_neg (by
        intro hcon
        rw [hcon] at hl
        simp [List.length_range] at hl)]
    · rw [hl, List.length_range]
    · exact ht
  · intro all_tides hours history_hours now hlen
    unfold generate_synthetic_predictions
    rw [if_pos hlen]

/-- C9: with at least two tides, the synthetic generator produces a point
for every whole hour from `now - history_hours` to `now + hours`,
inclusive of both endpoints (so `history_hours + hours + 1` points, and
31 for the claimed 6-past/24-future window); with fewer than two tides
it returns `None`. -/
theorem C9_synthetic_hourly_grid (pi : α) (cosf : α → α) :
    (∀ (all_tides : List (TidePoint α)) (hours history_hours : ℕ) (now : α),
      2 ≤ all_tides.length →
      ∃ l, generate_synthetic_predictions pi cosf all_tides hours history_hours now
          = some l ∧
        l.length = history_hours + hours + 1 ∧
        l.map TidePoint.time = (List.range (history_hours + hours + 1)).map
          (fun k : ℕ => now - (history_hours : α) + (k : α))) ∧
    (∀ (all_tides : List (TidePoint α)) (hours history_hours : ℕ) (now : α),
      all_tides.length < 2 →
      generate_synthetic_predictions pi cosf all_tides hours history_hours now
        = none) :=
  generate_synthetic_spec pi cosf

/-- Witness for C9: two tides, past 6h / future 24h from `now = 0` give
exactly 31 hourly points. -/
theorem C9_synthetic_hourly_grid_witness :
    (2 ≤ ([⟨0, 0⟩, ⟨6, 2⟩] : List (TidePoint ℚ)).length) ∧
    ∃ l, generate_synthetic_predictions (α := ℚ) 0 (fun _ => 0)
        [⟨0, 0⟩, ⟨6, 2⟩] 24 6 0 = some l ∧ l.length = 31 := by
  refine ⟨by norm_num, ?_⟩
  obtain ⟨l, h1, h2, _⟩ := (C9_synthetic_hourly_grid (α := ℚ) 0 (fun _ => 0)).1
    [⟨0, 0⟩, ⟨6, 2⟩] 24 6 0 (by norm_num)
  exact ⟨l, h1, h2.trans (by norm_num)⟩

/-- Lines 470-478 of `tide_math.py`: the closest-sample scan of
`estimate_trend_from_predictions`.  `min_diff` starts at infinity
(modelled by `none`, which the first comparison always beats) and is
replaced whenever `diff = |pred.time - target|` is strictly smaller, so
the first index attaining the minimum wins. -/
def closestLoop (target : α) :
    List (TidePoint α) → ℕ → ℕ → Option α → ℕ × Option α
  | [], _, best, mv => (best, mv)
  | p :: rest, i, best, mv =>
      match mv with
      | none => closestLoop target rest (i + 1) i (some |p.time - target|)
      | some m =>
          if |p.time - target| < m then
            closestLoop target rest (i + 1) i (some |p.time - target|)
          else closestLoop target rest (i + 1) best (some m)

/-- The `closest_idx` computed by the scan (initially `0`). -/
def closestIdx (target : α) (preds : List (TidePoint α)) : ℕ :=
  (closestLoop target preds 0 0 none).1

/-- Lines 446-502 of `tide_math.py`: `estimate_trend_from_predictions`.
Below 3 samples → `None`; otherwise pick the neighbours of the closest
index (first two at the left boundary, last two at the right boundary)
and classify `height_after - height_before` against the steady
threshold. -/
def estimate_trend_from_predictions (preds : List (TidePoint α))
    (target : α) : Option String :=
  if preds.length < 3 then none
  else
    let i := closestIdx target preds
    let heightBefore :=
      if i = 0 then (preds.getD 0 default).height
      else if i = preds.length - 1 then (preds.getD (preds.length - 2) default).height
      else (preds.getD (i - 1) default).height
    let heightAfter :=
      if i = 0 then (preds.getD 1 default).height
      else if i = preds.length - 1 then (preds.getD (preds.length - 1) default).height
      else (preds.getD (i + 1) default).height
    let heightDiff := heightAfter - heightBefore
    if |heightDiff| < TREND_STEADY_THRESHOLD_METERS then some "steady"
    else if 0 < heightDiff then some "rising"
    else some "falling"

/-- Invariant proof for the closest-sample scan: starting from position
`n` with an accumulator that is an argmin of the first `n` positions (or
the initial `(0, none)` state at `n = 0`), the final index is an argmin
over the whole list. -/
theorem closestLoop_argmin (target : α) (preds : List (TidePoint α)) :
    ∀ (l : List (TidePoint α)) (n best : ℕ) (mv : Option α),
      preds.drop n = l →
      (mv = none → n = 0 ∧ best = 0) →
      (∀ m, mv = some m → best < preds.length ∧
        m = |(preds.getD best default).time - target| ∧
        ∀ j, j < n → m ≤ |(preds.getD j default).time - target|) →
      preds ≠ [] →
      (closestLoop target l n best mv).1 < preds.length ∧
      ∀ j, j < preds.length →
        |(preds.getD (closestLoop target l n best mv).1 default).time - target| ≤
          |(preds.getD j default).time - target| := by
  intro l
  induction l with
  | nil =>
    intro n best mv hdrop hnone hsome hne
    have hlen : preds.length ≤ n := by
      by_contra hcon
      have := List.drop_eq_nil_iff.mp hdrop
      exact hcon this
    cases mv with
    | none =>
      obtain ⟨hn0, _⟩ := hnone rfl
      rw [hn0] at hlen
      exact absurd (List.length_eq_zero.mp (Nat.le_zero.mp hlen)) hne
    | some m =>
      obtain ⟨hb, hm, hmin⟩ := hsome m rfl
      refine ⟨hb, ?_⟩
      intro j hj
      show |(preds.getD best default).time - target| ≤ _
      rw [← hm]
      exact hmin j (lt_of_lt_of_le hj hlen)
  | cons p l2 ih =>
    intro n best mv hdrop hnone hsome hne
    have hn : n < preds.length := by
      by_contra hcon
      rw [List.drop_eq_nil_of_le (not_lt.mp hcon)] at hdrop
      exact List.cons_ne_nil p l2 hdrop.symm
    have hp : preds.getD n default = p := by
      have h0 : preds[n]? = some p := by
        have h1 := List.getElem?_drop preds n 0
        rw [hdrop] at h1
        simpa using h1.symm
      simp [List.getD_eq_getElem?_getD, h0]
    have hdrop2 : preds.drop (n + 1) = l2 := by
      have h1 : (preds.drop n).tail = preds.drop (n + 1) := by
        rw [← List.drop_drop]
        simp
      rw [← h1, hdrop]
      rfl
    cases mv with
    | none =>
      obtain ⟨hn0, _⟩ := hnone rfl
      rw [show closestLoop target (p :: l2) n best none =
          closestLoop target l2 (n + 1) n (some |p.time - target|) from rfl]
      apply ih (n + 1) n (some |p.time - target|) hdrop2 (by intro h; cases h)
        ?_ hne
      intro m hm
      rw [Option.some.injEq] at hm
      refine ⟨hn, by rw [← hm, hp], ?_⟩
      intro j hj
      have : j = n := by omega
      rw [this, hp, ← hm]
    | some m =>
      by_cases hcmp : |p.time - target| < m
      · rw [show closestLoop target (p :: l2) n best (some m) =
            (if |p.time - target| < m then
              closestLoop target l2 (n + 1) n (some |p.time - target|)
            else closestLoop target l2 (n + 1) best (some m)) from rfl,
          if_pos hcmp]
        apply ih (n + 1) n (some |p.time - target|) hdrop2
          (by intro h; cases h) ?_ hne
        intro m2 hm2
        rw [Option.some.injEq] at hm2
        obtain ⟨_, hm, hmin⟩ := hsome m rfl
        refine ⟨hn, by rw [← hm2, hp], ?_⟩
        intro j hj
        rcases Nat.lt_succ_iff_lt_or_eq.mp hj with hj2 | hj2
        · rw [← hm2]
          exact le_of_lt (lt_of_lt_of_le hcmp (hmin j hj2))
        · rw [hj2, hp, ← hm2]
      · rw [show closestLoop target (p :: l2) n best (some m) =
            (if |p.time - target| < m then
              closestLoop target l2 (n + 1) n (some |p.time - target|)
            else closestLoop target l2 (n + 1) best (some m)) from rfl,
          if_neg hcmp]
        apply ih (n + 1) best (some m) hdrop2 (by intro h; cases h) ?_ hne
        intro m2 hm2
        rw [Option.some.injEq] at hm2
        obtain ⟨hb, hm, hmin⟩ := hsome m rfl
        refine ⟨hb, by rw [← hm2, hm], ?_⟩
        intro j hj
        rcases Nat.lt_succ_iff_lt_or_eq.mp hj with hj2 | hj2
        · rw [← hm2]
          exact hmin j hj2
        · rw [hj2, hp, ← hm2]
          exact not_lt.mp hcmp

/-- C8: with ≥3 samples, `closest_idx` is a valid index minimising the
time distance to the target, and the trend is classified from the
neighbours of that index (`steady` when `|after − before| < 0.1`,
`rising` when positive, `falling` when negative); with <3 samples the
classifier returns `None`. -/
theorem C8_trend_classifier (preds : List (TidePoint α)) (target : α) :
    (3 ≤ preds.length →
      closestIdx target preds < preds.length ∧
      (∀ j, j < preds.length →
        |(preds.getD (closestIdx target preds) default).time - target| ≤
          |(preds.getD j default).time - target|) ∧
      estimate_trend_from_predictions preds target =
        (let i := closestIdx target preds
         let heightBefore :=
           if i = 0 then (preds.getD 0 default).height
           else if i = preds.length - 1 then
             (preds.getD (preds.length - 2) default).height
           else (preds.getD (i - 1) default).height
         let heightAfter :=
           if i = 0 then (preds.getD 1 default).height
           else if i = preds.length - 1 then
             (preds.getD (preds.length - 1) default).height
           else (preds.getD (i + 1) default).height
         if |heightAfter - heightBefore| < (1 / 10 : α) then some "steady"
         else if 0 < heightAfter - heightBefore then some "rising"
         else some "falling")) ∧
    (preds.length < 3 → estimate_trend_from_predictions preds target = none) := by
  constructor
  · intro h3
    have hne : preds ≠ [] := by
      intro hcon
      rw [hcon] at h3
      simp at h3
    obtain ⟨hidx, hmin⟩ := closestLoop_argmin target preds preds 0 0 none rfl
      (fun _ => ⟨rfl, rfl⟩) (by intro m hm; cases hm) hne
    refine ⟨hidx, hmin, ?_⟩
    unfold estimate_trend_from_predictions
    rw [if_neg (not_lt.mpr h3)]
    rfl
  · intro h3
    unfold estimate_trend_from_predictions
    rw [if_pos h3]

/-- Witness for C8: the spec's rising example `[1.0, 1.5, 2.0]` at hourly
steps (target at the first sample) classifies as `rising`. -/
theorem C8_trend_classifier_witness :
    (3 ≤ ([⟨0, 1⟩, ⟨1, 3/2⟩, ⟨2, 2⟩] : List (TidePoint ℚ)).length) ∧
    estimate_trend_from_predictions (α := ℚ)
      [⟨0, 1⟩, ⟨1, 3/2⟩, ⟨2, 2⟩] 0 = some "rising" := by
  refine ⟨by norm_num, ?_⟩
  have h := (C8_trend_classifier (α := ℚ) [⟨0, 1⟩, ⟨1, 3/2⟩, ⟨2, 2⟩] 0).1
    (by norm_num)
  refine h.2.2.trans ?_
  have hidx : closestIdx (α := ℚ) 0 [⟨0, 1⟩, ⟨1, 3/2⟩, ⟨2, 2⟩] = 0 := by
    norm_num [closestIdx, closestLoop, abs_of_nonneg]
  norm_num [hidx, List.getD, abs_of_nonneg]

/-- The `self._cached_predictions` dict stored by the coordinator
(lines 176-182 of `coordinator.py`). -/
structure PredictionCache (α : Type) where
  next_high : Option (TidePoint α)
  next_low : Option (TidePoint α)
  all_tides : List (TidePoint α)
  hourly_predictions : Option (List (TidePoint α))
  hours_after : ℕ
deriving DecidableEq

/-- Python truthiness of an optional list (`if hourly_predictions:`):
true only for a present, non-empty list. -/
def listTruthy {β : Type} (o : Option (List β)) : Bool :=
  match o with
  | some (_ :: _) => true
  | _ => false

/-- The 30-minute (half-hour) chart window test of lines 290-296 of
`coordinator.py`: `start_time - buffer <= time <= end_time + buffer`. -/
def inChartWindow (now : α) (chart_hours chart_history_hours : ℕ)
    (q : TidePoint α) : Bool :=
  decide (now - (chart_history_hours : α) - 1 / 2 ≤ q.time ∧
    q.time ≤ now + (chart_hours : α) + 1 / 2)

/-- Lines 273-322 of `coordinator.py`: `get_chart_predictions`.
No cache → `None`.  A truthy (present, non-empty) dense hourly series is
filtered to the requested window with the half-hour buffer; a non-empty
filtered list is returned, an empty one falls back to the *whole*
unfiltered hourly list ("If filtering resulted in no data, return all").
Without a truthy dense series, a non-empty extrema list feeds the
synthetic generator (whose result is returned as-is); otherwise `None`. -/
def get_chart_predictions (pi : α) (cosf : α → α)
    (cached : Option (PredictionCache α))
    (chart_hours chart_history_hours : ℕ) (now : α) :
    Option (List (TidePoint α)) :=
  match cached with
  | none => none
  | some c =>
    match c.hourly_predictions with
    | some (p :: rest) =>
        if (p :: rest).filter (inChartWindow now chart_hours chart_history_hours)
            ≠ [] then
          some ((p :: rest).filter (inChartWindow now chart_hours chart_history_hours))
        else some (p :: rest)
    | _ =>
        if c.all_tides ≠ [] then
          generate_synthetic_predictions pi cosf c.all_tides
            chart_hours chart_history_hours now
        else none

/-- C3 counterexample: a cache holding a non-empty dense series whose
single sample lies far outside the window.  Filtering empties the list,
and the code returns the full unfiltered dense series — not the
synthetic series generated from the (two-element) extrema list, which
has 25 points for this window. -/
theorem C3_counterexample :
    get_chart_predictions (α := ℚ) 0 (fun _ => 0)
      (some ⟨none, none, [⟨0, 0⟩, ⟨6, 2⟩], some [⟨1000, 5⟩], 0⟩) 24 0 0 =
      some [⟨1000, 5⟩] ∧
    get_chart_predictions (α := ℚ) 0 (fun _ => 0)
      (some ⟨none, none, [⟨0, 0⟩, ⟨6, 2⟩], some [⟨1000, 5⟩], 0⟩) 24 0 0 ≠
      generate_synthetic_predictions (α := ℚ) 0 (fun _ => 0)
        [⟨0, 0⟩, ⟨6, 2⟩] 24 0 0 := by
  have hwin : inChartWindow (0 : ℚ) 24 0 ⟨1000, 5⟩ = false := by
    unfold inChartWindow
    rw [decide_eq_false_iff_not]
    intro hcon
    norm_num at hcon
  have hchart : get_chart_predictions (α := ℚ) 0 (fun _ => 0)
      (some ⟨none, none, [⟨0, 0⟩, ⟨6, 2⟩], some [⟨1000, 5⟩], 0⟩) 24 0 0 =
      some [⟨1000, 5⟩] := by
    simp only [get_chart_predictions]
    rw [show ([⟨1000, 5⟩] : List (TidePoint ℚ)).filter (inChartWindow 0 24 0)
        = [] from by rw [List.filter_cons, hwin]; rfl]
    rw [if_neg (show ¬(([] : List (TidePoint ℚ)) ≠ []) from fun h => h rfl)]
  refine ⟨hchart, ?_⟩
  intro hcon
  obtain ⟨l, hgen, hlen, _⟩ := (generate_synthetic_spec (α := ℚ) 0 (fun _ => 0)).1
    [⟨0, 0⟩, ⟨6, 2⟩] 24 0 0 (by norm_num)
  rw [hchart, hgen, Option.some.injEq] at hcon
  rw [← hcon] at hlen
  simp at hlen

/-- C3 amended: with a truthy dense series the chart returns the filtered
series when non-empty and the *whole unfiltered dense series* when the
filter empties it (the synthetic fallback is reached only when no truthy
dense series exists, in which case a non-empty extrema list feeds the
generator and an empty one gives `None`). -/
theorem C3_amended_chart_series (pi : α) (cosf : α → α)
    (chart_hours chart_history_hours : ℕ) (now : α) :
    (∀ (c : PredictionCache α) (p : TidePoint α) (rest : List (TidePoint α)),
      c.hourly_predictions = some (p :: rest) →
      ((p :: rest).filter (inChartWindow now chart_hours chart_history_hours) ≠ [] →
        get_chart_predictions pi cosf (some c) chart_hours chart_history_hours now =
          some ((p :: rest).filter (inChartWindow now chart_hours chart_history_hours))) ∧
      ((p :: rest).filter (inChartWindow now chart_hours chart_history_hours) = [] →
        get_chart_predictions pi cosf (some c) chart_hours chart_history_hours now =
          some (p :: rest))) ∧
    (∀ (c : PredictionCache α),
      c.hourly_predictions = none ∨ c.hourly_predictions = some [] →
      get_chart_predictions pi cosf (some c) chart_hours chart_history_hours now =
        if c.all_tides ≠ [] then
          generate_synthetic_predictions pi cosf c.all_tides
            chart_hours chart_history_hours now
        else none) := by
  constructor
  · intro c p rest hc
    obtain ⟨nh, nl, tides, hp, ha⟩ := c
    change hp = some (p :: rest) at hc
    subst hc
    constructor
    · intro hfil
      simp only [get_chart_predictions]
      rw [if_pos hfil]
    · intro hfil
      simp only [get_chart_predictions]
      rw [if_neg (by rw [hfil]; exact fun h => h rfl)]
  · intro c hc
    obtain ⟨nh, nl, tides, hp, ha⟩ := c
    rcases hc with hc | hc <;>
      · change hp = _ at hc
        subst hc
        simp only [get_chart_predictions]

/-- Witness for the amended C3: a dense sample inside the window survives
the filter and is returned filtered. -/
theorem C3_amended_chart_series_witness :
    (PredictionCache.hourly_predictions
      (⟨none, none, [], some [⟨0, 1⟩], 0⟩ : PredictionCache ℚ) = some [⟨0, 1⟩]) ∧
    get_chart_predictions (α := ℚ) 0 (fun _ => 0)
      (some ⟨none, none, [], some [⟨0, 1⟩], 0⟩) 24 0 0 = some [⟨0, 1⟩] := by
  have hwin : inChartWindow (0 : ℚ) 24 0 ⟨0, 1⟩ = true := by
    simp only [inChartWindow, decide_eq_true_eq]
    norm_num
  have hfil : ([⟨0, 1⟩] : List (TidePoint ℚ)).filter (inChartWindow 0 24 0)
      = [⟨0, 1⟩] := by
    rw [List.filter_cons, hwin]
    rfl
  refine ⟨rfl, ?_⟩
  have h := ((C3_amended_chart_series (α := ℚ) 0 (fun _ => 0) 24 0 0).1
    ⟨none, none, [], some [⟨0, 1⟩], 0⟩ ⟨0, 1⟩ [] rfl).1
    (by rw [hfil]; exact fun hcon => List.cons_ne_nil _ _ hcon)
  rw [hfil] at h
  exact h

/-- The provider response dict returned by
`api.get_all_predictions` (lines 104-122 of `coordinator.py`). -/
structure AllPredictions (α : Type) where
  hourly_predictions : Option (List (TidePoint α))
  next_high : Option (TidePoint α)
  next_low : Option (TidePoint α)
  prev_tide : Option (TidePoint α)
  next_tide : Option (TidePoint α)
  all_tides : List (TidePoint α)
deriving DecidableEq

/-- The coordinator's mutable state touched by `_async_update_data`:
`self._cached_predictions` and `self.last_update_time`. -/
structure CoordState (α : Type) where
  cached_predictions : Option (PredictionCache α)
  last_update_time : Option α
deriving DecidableEq

/-- The data dict returned by a successful `_async_update_data`. -/
structure CoordData (α : Type) where
  current : Option (TidePoint α)
  next_high : Option (TidePoint α)
  next_low : Option (TidePoint α)
  trend : Option String
  tide_rate : Option α

/-- Lines 80-199 of `coordinator.py`: `_async_update_data`, as an explicit
state transition.  The provider call is the `fetched` argument
(`Except.error` = the call raised, `Except.ok none` = it returned `None`);
the window-size arithmetic of lines 83-102 only shapes the request and is
summarised by the `hours_after` parameter; `calculate_tide_rate` (not
needed by any claim) is the abstract parameter `rate`.  On either failure
the wrapped `UpdateFailed` propagates and the state is returned untouched;
on success the cache and timestamp are replaced and the derived data
returned. -/
def asyncUpdateData (pi : α) (cosf : α → α) (scipyAvailable : Bool)
    (cubic : List (TidePoint α) → α → Option α)
    (rate : Option (List (TidePoint α)) → Option (TidePoint α) →
      Option (TidePoint α) → α → Option α)
    (st : CoordState α) (hours_after : ℕ)
    (fetched : Except Unit (Option (AllPredictions α))) (now : α) :
    CoordState α × Except String (CoordData α) :=
  match fetched with
  | .error _ => (st, .error "Error communicating with API")
  | .ok none =>
      (st, .error "Error communicating with API: Failed to fetch tide predictions")
  | .ok (some ap) =>
      let currentFromHourly : Option (TidePoint α) :=
        match ap.hourly_predictions with
        | some (p :: rest) => interpolate_tide_height scipyAvailable cubic (p :: rest) now
        | _ => none
      let current : Option (TidePoint α) :=
        match currentFromHourly with
        | some c => some c
        | none =>
            match ap.prev_tide, ap.next_tide with
            | some pt, some nt => interpolate_from_high_low pi cosf (some pt) (some nt) now
            | _, _ => none
      let tideRate : Option α :=
        if listTruthy ap.hourly_predictions ||
            (ap.next_high.isSome && ap.next_low.isSome) then
          rate ap.hourly_predictions ap.next_high ap.next_low now
        else none
      let trend : Option String :=
        match ap.hourly_predictions with
        | some (p :: rest) => estimate_trend_from_predictions (p :: rest) now
        | _ => none
      (⟨some ⟨ap.next_high, ap.next_low, ap.all_tides, ap.hourly_predictions,
          hours_after⟩, some now⟩,
       .ok ⟨current, ap.next_high, ap.next_low, trend, tideRate⟩)

/-- C4: when the provider raises or returns no data, the refresh surfaces
an error to its caller and the coordinator state (cached predictions and
timestamp) is returned exactly as it was. -/
theorem C4_failed_refresh_keeps_cache (pi : α) (cosf : α → α)
    (scipyAvailable : Bool) (cubic : List (TidePoint α) → α → Option α)
    (rate : Option (List (TidePoint α)) → Option (TidePoint α) →
      Option (TidePoint α) → α → Option α)
    (st : CoordState α) (hours_after : ℕ)
    (fetched : Except Unit (Option (AllPredictions α))) (now : α)
    (hfail : fetched = Except.error () ∨ fetched = Except.ok none) :
    (asyncUpdateData pi cosf scipyAvailable cubic rate st hours_after
      fetched now).1 = st ∧
    ∃ msg, (asyncUpdateData pi cosf scipyAvailable cubic rate st hours_after
      fetched now).2 = Except.error msg := by
  rcases hfail with rfl | rfl
  · exact ⟨rfl, _, rfl⟩
  · exact ⟨rfl, _, rfl⟩

/-- Witness for C4: a populated cache survives a `None` response. -/
theorem C4_failed_refresh_keeps_cache_witness :
    ((Except.ok none : Except Unit (Option (AllPredictions ℚ))) = Except.error ()
      ∨ (Except.ok none : Except Unit (Option (AllPredictions ℚ))) = Except.ok none) ∧
    (asyncUpdateData (α := ℚ) 0 (fun _ => 0) false (fun _ _ => none)
      (fun _ _ _ _ => none)
      ⟨some ⟨none, none, [⟨0, 0⟩], some [], 3⟩, some 5⟩ 7 (Except.ok none) 9).1 =
      ⟨some ⟨none, none, [⟨0, 0⟩], some [], 3⟩, some 5⟩ := by
  refine ⟨Or.inr rfl, ?_⟩
  exact (C4_failed_refresh_keeps_cache (α := ℚ) 0 (fun _ => 0) false
    (fun _ _ => none) (fun _ _ _ _ => none)
    ⟨some ⟨none, none, [⟨0, 0⟩], some [], 3⟩, some 5⟩ 7 (Except.ok none) 9
    (Or.inr rfl)).1

end NoaaTides
